import Mathlib

/-!
Verification development for the openclaw-agent-backup control plane.

The definitions below are a shallow embedding of the Go service:
  - the shared data model and DataStore surface (store.go / part_004),
  - the SQLite backend (service/store_sqlite.go),
  - the DynamoDB backend's backup create/replace semantics (store_dynamo.go),
  - the object-store broker's presign primitives (s3.go in part_007),
  - the HTTP handlers of service/handlers.go (Register, UploadURL,
    DeleteBackup, DeleteAllBackups) as state-transforming functions whose
    results record the HTTP status, the minted URL descriptors, the new
    store state and the S3 objects deleted during the request,
  - the route wiring of the newer buildHandler (main.go, part_005),
  - the RequireActive middleware, which is exercised by the repository's
    tests and wired by the newer buildHandler but whose implementation is
    absent from the source snapshot; it is modelled from the spec where
    noted.

Machine integers (Go int64) are modelled as Int; timestamps and object
keys as String; instants (created_at, deleted_at) as Nat counters.
-/

/-- One row of the agents table (Go type Agent in store.go). Self-reported
metadata that no claim touches (fingerprint, public key, version) is kept
as plain strings with empty defaults, exactly as the Go zero values. -/
structure AgentRow where
  id : String
  name : String
  hostname : String := ""
  os : String := ""
  arch : String := ""
  encryptTool : String := ""
  publicKey : String := ""
  tokenHash : String
  status : String
  quotaBytes : Int
  usedBytes : Int
  createdAt : Nat := 0
  deriving Repr, DecidableEq

/-- One row of the backups table (Go type Backup in store.go), together
with the soft-delete column deleted_at added by the SQLite migration.
deletedAt = none means the backup is visible. -/
structure BackupRow where
  agentId : String
  timestamp : String
  encryptedBytes : Int
  sourceFileCount : Int := 0
  encryptedSHA256 : String := ""
  s3Key : String
  manifestS3Key : String
  createdAt : Nat := 0
  deletedAt : Option Nat := none
  deriving Repr, DecidableEq

/-- The persistent state behind the DataStore surface: the agents table and
the backups table. -/
structure StoreState where
  agents : List AgentRow
  backups : List BackupRow
  deriving Repr, DecidableEq

/-- Visible (non-soft-deleted) backups of one agent, the rows every read
path of store_sqlite.go selects with deleted_at IS NULL. -/
def visibleBackups (st : StoreState) (aid : String) : List BackupRow :=
  st.backups.filter (fun b => b.agentId == aid && b.deletedAt == none)

/-- COALESCE(SUM(encrypted_bytes), 0) over the visible backups of one
agent, the subquery of SQLiteStore.UpdateUsedBytes. -/
def visibleBytesSum (st : StoreState) (aid : String) : Int :=
  ((visibleBackups st aid).map (fun b => b.encryptedBytes)).sum

/-- SQLiteStore.UpdateUsedBytes: set the agent's used_bytes to the sum of
encrypted_bytes over its visible backups. -/
def updateUsedBytes (st : StoreState) (aid : String) : StoreState :=
  { st with
    agents := st.agents.map (fun a =>
      if a.id == aid then { a with usedBytes := visibleBytesSum st aid } else a) }

/-- SQLiteStore.CreateAgent: INSERT INTO agents; the primary key on id
makes the insert fail when the id already exists. -/
def sqliteCreateAgent (st : StoreState) (a : AgentRow) : Option StoreState :=
  if st.agents.any (fun x => x.id == a.id) then none
  else some { st with agents := st.agents ++ [a] }

/-- SQLiteStore.LookupAgentByToken: hash the presented token and select the
agent whose token_hash matches. The hash function is passed in, mirroring
HashToken being applied before the SELECT. -/
def lookupAgentByToken (hashFn : String → String) (st : StoreState) (token : String) :
    Option AgentRow :=
  st.agents.find? (fun a => a.tokenHash == hashFn token)

/-- SQLiteStore.GetAgent: select by id. -/
def getAgent (st : StoreState) (aid : String) : Option AgentRow :=
  st.agents.find? (fun a => a.id == aid)

/-- SQLiteStore.RotateAgentToken: UPDATE agents SET token_hash = new WHERE
id = agentID, a single-row replacement of the stored hash. -/
def rotateAgentToken (st : StoreState) (aid newHash : String) : StoreState :=
  { st with
    agents := st.agents.map (fun a =>
      if a.id == aid then { a with tokenHash := newHash } else a) }

/-- SQLiteStore.CreateBackup: a plain INSERT INTO backups followed by
UpdateUsedBytes. The composite primary key (agent_id, timestamp) covers
every row, soft-deleted ones included, so the INSERT fails whenever a row
with the same key exists. -/
def sqliteCreateBackup (st : StoreState) (b : BackupRow) : Option StoreState :=
  if st.backups.any (fun r => r.agentId == b.agentId && r.timestamp == b.timestamp) then
    none
  else
    some (updateUsedBytes { st with backups := st.backups ++ [b] } b.agentId)

/-- SQLiteStore.GetBackup: select the row by (agent_id, timestamp) with
deleted_at IS NULL; soft-deleted rows appear as absent. -/
def sqliteGetBackup (st : StoreState) (aid ts : String) : Option BackupRow :=
  st.backups.find? (fun b => b.agentId == aid && b.timestamp == ts && b.deletedAt == none)

/-- SQLiteStore.CountBackups: visible count and byte sum for one agent. -/
def sqliteCountBackups (st : StoreState) (aid : String) : Nat × Int :=
  ((visibleBackups st aid).length, visibleBytesSum st aid)

/-- SQLiteStore.DeleteBackup: fetch the visible row first (returning the
pre-delete snapshot), then UPDATE ... SET deleted_at = now on that visible
row, then UpdateUsedBytes. When the row is absent or already soft-deleted
the function returns none and the state untouched. -/
def sqliteDeleteBackup (st : StoreState) (aid ts : String) (now : Nat) :
    Option BackupRow × StoreState :=
  match sqliteGetBackup st aid ts with
  | none => (none, st)
  | some b =>
    let st1 : StoreState :=
      { st with
        backups := st.backups.map (fun r =>
          if r.agentId == aid && r.timestamp == ts && r.deletedAt == none then
            { r with deletedAt := some now }
          else r) }
    (some b, updateUsedBytes st1 aid)

/-- SQLiteStore.DeleteAllBackups: list the visible rows, soft-delete all of
them, recompute used_bytes, and return the pre-delete list. -/
def sqliteDeleteAllBackups (st : StoreState) (aid : String) (now : Nat) :
    List BackupRow × StoreState :=
  let vis := visibleBackups st aid
  let st1 : StoreState :=
    { st with
      backups := st.backups.map (fun r =>
        if r.agentId == aid && r.deletedAt == none then { r with deletedAt := some now }
        else r) }
  (vis, updateUsedBytes st1 aid)

/-- SQLiteStore.UndeleteBackup: UPDATE ... SET deleted_at = NULL on the
soft-deleted row; when no such row exists the statement affects zero rows
and the call errors without touching the state. On success used_bytes is
recomputed. -/
def sqliteUndeleteBackup (st : StoreState) (aid ts : String) : Option StoreState :=
  if st.backups.any (fun r => r.agentId == aid && r.timestamp == ts && r.deletedAt != none) then
    some (updateUsedBytes
      { st with
        backups := st.backups.map (fun r =>
          if r.agentId == aid && r.timestamp == ts && r.deletedAt != none then
            { r with deletedAt := none }
          else r) } aid)
  else none

/-- DynamoStore.CreateBackup: a PutItem keyed on (agent_id, timestamp)
replaces any existing item with the new one (the new item carries no
deleted_at attribute, so it is visible), then UpdateUsedBytes runs. -/
def dynamoCreateBackup (st : StoreState) (b : BackupRow) : StoreState :=
  updateUsedBytes
    { st with
      backups :=
        (st.backups.filter (fun r =>
          !(r.agentId == b.agentId && r.timestamp == b.timestamp))) ++
        [{ b with deletedAt := none }] }
    b.agentId

/-- A presigned URL descriptor: the request parameters the broker signs.
PutObjectInput carries the bucket key, the content type and, optionally, a
fixed ContentLength (s3.go, part_007). -/
structure UrlDesc where
  key : String
  contentType : String
  contentLength : Option Int
  deriving Repr, DecidableEq

/-- S3Client.PresignPut (s3.go): signs key and content type only; no
ContentLength is bound, so the object store accepts a body of any size. -/
def presignPut (key contentType : String) : UrlDesc :=
  { key := key, contentType := contentType, contentLength := none }

/-- S3Client.PresignPutWithLength (s3.go): signs key, content type and a
fixed ContentLength, so the object store rejects a PUT whose body length
differs. Declared in the source; the handlers present in the snapshot
never call it. -/
def presignPutWithLength (key contentType : String) (contentLength : Int) : UrlDesc :=
  { key := key, contentType := contentType, contentLength := some contentLength }

/-- The observable outcome of one handler execution: HTTP status, minted
URL descriptors keyed by file name, error message (the json error body),
the agent status echoed by the RequireActive 403 body, the store state
after the request, and the S3 keys deleted server-side during the
request. -/
structure HandlerResult where
  httpStatus : Nat
  urls : List (String × UrlDesc) := []
  errorMsg : String := ""
  bodyStatus : Option String := none
  store : StoreState
  s3Deleted : List String := []
  deriving Repr, DecidableEq

/-- POST /v1/agents/register request body (handlers.go RegisterRequest);
only the fields the claims touch are kept by name, the rest are opaque
metadata defaulting to empty. -/
structure RegisterReq where
  agentName : String
  hostname : String := ""
  deriving Repr, DecidableEq

/-- POST /v1/agents/register 201 response body (handlers.go
RegisterResponse): exactly the four JSON fields the handler encodes. -/
structure RegisterResp where
  agentId : String
  token : String
  quotaMB : Int
  backupPfx : String
  deriving Repr, DecidableEq

/-- The JSON keys and values of a RegisterResponse as encoded by
jsonResponse, in struct-tag order. -/
def registerRespFields (r : RegisterResp) : List (String × String) :=
  [("agent_id", r.agentId), ("token", r.token),
   ("quota_mb", toString r.quotaMB), ("backup_prefix", r.backupPfx)]

/-- Outcome of the Register handler. -/
structure RegisterResult where
  httpStatus : Nat
  resp : Option RegisterResp
  store : StoreState
  deriving Repr, DecidableEq

/-- Handlers.Register (service/handlers.go): reject 400 on empty
agent_name, build the Agent value (its Status field is never assigned, so
the Go zero value, the empty string, is persisted), insert it, and answer
201 with agent_id, token, quota_mb and the agent's backup key root.
The randomly generated agent id, token and token hash are passed in as
arguments, mirroring GenerateAgentID and GenerateToken being called
first. -/
def registerOld (defaultQuotaBytes : Int) (agentID token tokenHash : String)
    (req : RegisterReq) (st : StoreState) : RegisterResult :=
  if req.agentName = "" then { httpStatus := 400, resp := none, store := st }
  else
    let a : AgentRow :=
      { id := agentID, name := req.agentName, hostname := req.hostname,
        tokenHash := tokenHash, status := "", quotaBytes := defaultQuotaBytes,
        usedBytes := 0 }
    match sqliteCreateAgent st a with
    | none => { httpStatus := 500, resp := none, store := st }
    | some st1 =>
      { httpStatus := 201,
        resp := some
          { agentId := agentID, token := token,
            quotaMB := defaultQuotaBytes / (1024 * 1024),
            backupPfx := agentID ++ "/" },
        store := st1 }

/-- POST /v1/backups/upload-url request body (handlers.go
UploadURLRequest). -/
structure UploadReq where
  timestamp : String
  files : List String := []
  encryptedBytes : Int
  encryptedSHA256 : String := ""
  deriving Repr, DecidableEq

/-- Handlers.UploadURL as present in service/handlers.go: reject 400 on
empty timestamp; reject 403 when used_bytes + encrypted_bytes exceeds the
quota; default the file list; presign every requested file with PresignPut
(no ContentLength bound on any of them); record the backup metadata via
CreateBackup (500 when the insert fails); answer 200 with the URL map.
The authenticated agent comes from the request context. -/
def uploadURLOld (agent : AgentRow) (req : UploadReq) (now : Nat) (st : StoreState) :
    HandlerResult :=
  if req.timestamp = "" then
    { httpStatus := 400, errorMsg := "timestamp is required", store := st }
  else if agent.usedBytes + req.encryptedBytes > agent.quotaBytes then
    { httpStatus := 403, errorMsg := "quota exceeded", store := st }
  else
    let keyBase := agent.id ++ "/" ++ req.timestamp ++ "/"
    let files := if req.files = [] then ["backup.tar.gz.enc", "manifest.json"] else req.files
    let urls := files.map (fun f =>
      (f, presignPut (keyBase ++ f)
        (if f = "manifest.json" then "application/json" else "application/octet-stream")))
    let b : BackupRow :=
      { agentId := agent.id, timestamp := req.timestamp,
        encryptedBytes := req.encryptedBytes, sourceFileCount := 0,
        encryptedSHA256 := req.encryptedSHA256,
        s3Key := keyBase ++ "backup.tar.gz.enc",
        manifestS3Key := keyBase ++ "manifest.json",
        createdAt := now, deletedAt := none }
    match sqliteCreateBackup st b with
    | none => { httpStatus := 500, errorMsg := "failed to record backup", store := st }
    | some st1 => { httpStatus := 200, urls := urls, store := st1 }

/-- Handlers.DeleteBackup as present in service/handlers.go: soft-delete
via the store; 404 when the store reports no visible row; on success the
handler immediately calls S3Client.DeleteBackupObjects, which deletes the
blob key and then the manifest key. -/
def deleteBackupHandlerOld (agent : AgentRow) (ts : String) (now : Nat) (st : StoreState) :
    HandlerResult :=
  match sqliteDeleteBackup st agent.id ts now with
  | (none, st1) =>
    { httpStatus := 404, errorMsg := "backup not found", store := st1 }
  | (some b, st1) =>
    { httpStatus := 200, store := st1, s3Deleted := [b.s3Key, b.manifestS3Key] }

/-- Handlers.DeleteAllBackups as present in service/handlers.go:
soft-delete every visible backup, then call DeleteBackupObjects for each
one returned. -/
def deleteAllBackupsHandlerOld (agent : AgentRow) (now : Nat) (st : StoreState) :
    HandlerResult :=
  let r := sqliteDeleteAllBackups st agent.id now
  { httpStatus := 200, store := r.2,
    s3Deleted := (r.1.map (fun b => [b.s3Key, b.manifestS3Key])).flatten }

/-- Modelled from the spec: the RequireActive middleware implementation is
missing from the source snapshot (only its tests in handlers_test.go and
its caller, the newer buildHandler, are present). Per the spec it rejects
403 unless agent.status == active, including the agent status in the error
body so clients can distinguish pending from suspended, and does not run
the inner handler; an active agent passes through untouched. -/
def requireActive (inner : AgentRow → StoreState → HandlerResult)
    (agent : AgentRow) (st : StoreState) : HandlerResult :=
  if agent.status = "active" then inner agent st
  else
    { httpStatus := 403, errorMsg := "agent not active",
      bodyStatus := some agent.status, store := st }

/-- One mux registration of the newer buildHandler (main.go, part_005):
method, path pattern, auth kind (none, bearer or admin) and whether the
handler is wrapped in RequireActive. -/
structure Route where
  method : String
  path : String
  auth : String
  requiresActive : Bool
  deriving Repr, DecidableEq

/-- The route table of the newer buildHandler (main.go, part_005), in
registration order. -/
def buildHandlerRoutes : List Route :=
  [ { method := "POST", path := "/v1/agents/register", auth := "none", requiresActive := false },
    { method := "POST", path := "/v1/backups/upload-url", auth := "bearer", requiresActive := true },
    { method := "DELETE", path := "/v1/backups", auth := "bearer", requiresActive := true },
    { method := "DELETE", path := "/v1/backups/{timestamp}", auth := "bearer", requiresActive := true },
    { method := "POST", path := "/v1/backups/{timestamp}/undelete", auth := "bearer", requiresActive := true },
    { method := "GET", path := "/v1/backups", auth := "bearer", requiresActive := false },
    { method := "GET", path := "/v1/backups/{timestamp}", auth := "bearer", requiresActive := false },
    { method := "POST", path := "/v1/backups/download-url", auth := "bearer", requiresActive := false },
    { method := "GET", path := "/v1/agents/me", auth := "bearer", requiresActive := false },
    { method := "POST", path := "/v1/agents/me/rotate-token", auth := "bearer", requiresActive := false },
    { method := "GET", path := "/v1/admin/agents", auth := "admin", requiresActive := false },
    { method := "POST", path := "/v1/admin/agents/{id}/approve", auth := "admin", requiresActive := false },
    { method := "POST", path := "/v1/admin/agents/{id}/suspend", auth := "admin", requiresActive := false },
    { method := "GET", path := "/healthz", auth := "none", requiresActive := false } ]

/-- An active agent with the default 500 MiB quota and nothing stored,
used as a concrete fixture. -/
def agActive : AgentRow :=
  { id := "ag1", name := "test-agent", tokenHash := "h1", status := "active",
    quotaBytes := 524288000, usedBytes := 0 }

/-- A pending agent fixture. -/
def agPending : AgentRow :=
  { id := "ag2", name := "pending-agent", tokenHash := "h2", status := "pending",
    quotaBytes := 524288000, usedBytes := 0 }

/-- A visible backup record of agActive, as UploadURL would persist it. -/
def bT1 : BackupRow :=
  { agentId := "ag1", timestamp := "2026-02-22T030000Z", encryptedBytes := 1024,
    encryptedSHA256 := "abc",
    s3Key := "ag1/2026-02-22T030000Z/backup.tar.gz.enc",
    manifestS3Key := "ag1/2026-02-22T030000Z/manifest.json", createdAt := 1 }

/-- A store holding agActive and the single visible backup bT1. -/
def stOneVisible : StoreState := { agents := [agActive], backups := [bT1] }

/-- The upload-url handler run on an accepted 1024-byte request against an
empty store. -/
def uploadRun1024 : HandlerResult :=
  uploadURLOld agActive
    { timestamp := "2026-02-22T030000Z", encryptedBytes := 1024, encryptedSHA256 := "abc" }
    1 { agents := [agActive], backups := [] }

/-- Claim C1: on the mutating backup endpoints, a pending or suspended
agent is rejected 403 with its status in the body and no store or
object-store mutation, while an active agent passes the gate. The newer
buildHandler wraps exactly the four mutating routes in RequireActive, and
the gate (modelled from the spec) short-circuits with 403 carrying the
agent status, leaving the store untouched and deleting nothing, for any
non-active status; an active agent is handed to the inner handler
unchanged. -/
theorem c1_require_active_gate :
    (buildHandlerRoutes.filter (fun r => r.requiresActive)).map (fun r => (r.method, r.path)) =
      [("POST", "/v1/backups/upload-url"), ("DELETE", "/v1/backups"),
       ("DELETE", "/v1/backups/{timestamp}"), ("POST", "/v1/backups/{timestamp}/undelete")]
    ∧ (∀ (inner : AgentRow → StoreState → HandlerResult) (agent : AgentRow) (st : StoreState),
        agent.status = "pending" ∨ agent.status = "suspended" →
        requireActive inner agent st =
          { httpStatus := 403, errorMsg := "agent not active",
            bodyStatus := some agent.status, store := st })
    ∧ (∀ (inner : AgentRow → StoreState → HandlerResult) (agent : AgentRow) (st : StoreState),
        agent.status = "active" → requireActive inner agent st = inner agent st) := by
  refine ⟨by decide, ?_, ?_⟩
  · intro inner agent st h
    have hne : agent.status ≠ "active" := by
      rcases h with h | h <;> simp [h]
    simp [requireActive, hne]
  · intro inner agent st h
    simp [requireActive, h]

/-- A trivial inner handler used to witness the gate. -/
def innerProbe : AgentRow → StoreState → HandlerResult :=
  fun _ st => { httpStatus := 200, store := st }

/-- Witness for C1: the gate at a concrete pending agent and at a concrete
active agent. -/
theorem c1_require_active_gate_witness :
    requireActive innerProbe agPending { agents := [agPending], backups := [] } =
      { httpStatus := 403, errorMsg := "agent not active",
        bodyStatus := some "pending", store := { agents := [agPending], backups := [] } }
    ∧ requireActive innerProbe agActive { agents := [], backups := [] } =
        innerProbe agActive { agents := [], backups := [] } :=
  ⟨c1_require_active_gate.2.1 innerProbe agPending _ (Or.inl rfl),
   c1_require_active_gate.2.2 innerProbe agActive _ rfl⟩

/-- Claim C2: the claim says an accepted upload-url response binds
Content-Length = encrypted_bytes on the ciphertext PUT URL. The UploadURL
present in service/handlers.go mints every file, the ciphertext included,
through PresignPut, which binds no length (PresignPutWithLength, which
would bind it, is declared in s3.go but never called): on the accepted
1024-byte request the ciphertext descriptor carries contentLength = none
rather than some 1024. -/
theorem c2_upload_url_unbound_put :
    uploadRun1024.httpStatus = 200
    ∧ uploadRun1024.urls.find? (fun p => p.1 == "backup.tar.gz.enc") =
        some ("backup.tar.gz.enc",
          { key := "ag1/2026-02-22T030000Z/backup.tar.gz.enc",
            contentType := "application/octet-stream", contentLength := none })
    ∧ uploadRun1024.urls.all (fun p => p.2.contentLength == none) = true
    ∧ (presignPutWithLength "ag1/2026-02-22T030000Z/backup.tar.gz.enc"
        "application/octet-stream" 1024).contentLength = some 1024 := by
  refine ⟨rfl, rfl, rfl, rfl⟩

/-- Claim C3: the claim says encrypted_bytes = 0 and encrypted_bytes =
max_upload_bytes + 1 are rejected 400. The UploadURL present in
service/handlers.go validates only the timestamp and the quota: a request
with encrypted_bytes = 0 is accepted with 200 and recorded, and so is one
of 5 MiB + 1 bytes (there is no max_upload_bytes check at all). -/
theorem c3_upload_url_missing_validation :
    (uploadURLOld agActive { timestamp := "2026-02-22T030000Z", encryptedBytes := 0 }
        1 { agents := [agActive], backups := [] }).httpStatus = 200
    ∧ (uploadURLOld agActive { timestamp := "2026-02-22T030000Z", encryptedBytes := 0 }
        1 { agents := [agActive], backups := [] }).store.backups.length = 1
    ∧ (uploadURLOld agActive { timestamp := "2026-02-22T030000Z", encryptedBytes := 5242881 }
        1 { agents := [agActive], backups := [] }).httpStatus = 200 := by
  refine ⟨rfl, rfl, rfl⟩

/-- A store holding two visible backups of agActive, at the
max_backups_per_agent = 2 limit of the failing configuration. -/
def stTwoVisible : StoreState :=
  { agents := [agActive],
    backups := [
      { agentId := "ag1", timestamp := "2026-02-20T030000Z", encryptedBytes := 100,
        s3Key := "ag1/2026-02-20T030000Z/backup.tar.gz.enc",
        manifestS3Key := "ag1/2026-02-20T030000Z/manifest.json", createdAt := 1 },
      { agentId := "ag1", timestamp := "2026-02-21T030000Z", encryptedBytes := 100,
        s3Key := "ag1/2026-02-21T030000Z/backup.tar.gz.enc",
        manifestS3Key := "ag1/2026-02-21T030000Z/manifest.json", createdAt := 2 }] }

/-- Claim C4: the claim says a completed UploadURL leaves at most
max_backups_per_agent visible backups, soft-deleting the oldest surplus.
The UploadURL present in service/handlers.go has no rotation step: with
max_backups_per_agent = 2 and two visible backups, a third accepted upload
leaves three visible backups and the oldest still visible. -/
theorem c4_no_rotation_after_upload :
    (visibleBackups
      (uploadURLOld agActive { timestamp := "2026-02-22T030000Z", encryptedBytes := 100 }
        3 stTwoVisible).store "ag1").length = 3
    ∧ (sqliteGetBackup
        (uploadURLOld agActive { timestamp := "2026-02-22T030000Z", encryptedBytes := 100 }
          3 stTwoVisible).store "ag1" "2026-02-20T030000Z").isSome = true := by
  refine ⟨rfl, rfl⟩

/-- The Register handler run on a valid request against an empty store,
with the generated id, token and hash injected. -/
def registerRun : RegisterResult :=
  registerOld 524288000 "ag_x" "ocb_t" "hash_t" { agentName := "test-agent" }
    { agents := [], backups := [] }

/-- Claim C5: the claim says Register persists status = pending and
returns 201 with a status field. The Register present in
service/handlers.go never assigns the Status field, so the empty string is
persisted instead of pending, and the 201 body carries exactly the keys
agent_id, token, quota_mb and backup_prefix, with no status key. The
used_bytes = 0, quota and backup key layout parts of the claim do hold. -/
theorem c5_register_status_missing :
    registerRun.httpStatus = 201
    ∧ registerRun.store.agents =
        [{ id := "ag_x", name := "test-agent", tokenHash := "hash_t", status := "",
           quotaBytes := 524288000, usedBytes := 0 }]
    ∧ registerRun.resp.map (fun x => (registerRespFields x).map Prod.fst) =
        some ["agent_id", "token", "quota_mb", "backup_prefix"]
    ∧ registerRun.resp.map (fun x => x.backupPfx) = some "ag_x/" := by
  refine ⟨rfl, rfl, rfl, rfl⟩

/-- Claim C8: the claim says the soft-delete handlers delete no
object-store objects. The DeleteBackup present in service/handlers.go
calls S3Client.DeleteBackupObjects immediately after the soft-delete,
removing both the blob and the manifest on the spot, and DeleteAllBackups
does the same for every backup it soft-deletes. -/
theorem c8_soft_delete_deletes_objects :
    (deleteBackupHandlerOld agActive "2026-02-22T030000Z" 5 stOneVisible).httpStatus = 200
    ∧ (deleteBackupHandlerOld agActive "2026-02-22T030000Z" 5 stOneVisible).s3Deleted =
        ["ag1/2026-02-22T030000Z/backup.tar.gz.enc", "ag1/2026-02-22T030000Z/manifest.json"]
    ∧ (deleteAllBackupsHandlerOld agActive 5 stOneVisible).s3Deleted ≠ [] := by
  refine ⟨rfl, rfl, by decide⟩

/-- Claim C10: soft-deleting a backup whose (agent_id, timestamp) is
absent or already soft-deleted answers 404 backup not found and changes
nothing: the store state is returned as-is (so no backup row and no
used_bytes change) and no object-store delete is attempted. GetBackup
filters deleted_at IS NULL, so both the absent and the already-deleted
case reach the handler as a nil row. -/
theorem c10_delete_missing_noop (agent : AgentRow) (ts : String) (now : Nat)
    (st : StoreState) (h : sqliteGetBackup st agent.id ts = none) :
    deleteBackupHandlerOld agent ts now st =
      { httpStatus := 404, errorMsg := "backup not found", store := st } := by
  simp [deleteBackupHandlerOld, sqliteDeleteBackup, h]

/-- Witness for C10: deleting a never-created timestamp from the store
with one unrelated visible backup. -/
theorem c10_delete_missing_noop_witness :
    sqliteGetBackup stOneVisible agActive.id "1999-01-01T000000Z" = none
    ∧ deleteBackupHandlerOld agActive "1999-01-01T000000Z" 7 stOneVisible =
        { httpStatus := 404, errorMsg := "backup not found", store := stOneVisible } :=
  ⟨rfl, c10_delete_missing_noop agActive "1999-01-01T000000Z" 7 stOneVisible rfl⟩

/-- Sum of a list of integers is nonnegative when every element is. -/
theorem listIntSum_nonneg {l : List Int} (h : ∀ x ∈ l, 0 ≤ x) : 0 ≤ l.sum := by
  induction l with
  | nil => simp
  | cons x xs ih =>
    rw [List.sum_cons]
    have h1 := h x (List.mem_cons_self x xs)
    have h2 := ih (fun y hy => h y (List.mem_cons_of_mem x hy))
    omega

/-- The used_bytes cache is consistent for an agent: every agents-table row
with that id carries exactly the visible byte sum. -/
def usedBytesInv (st : StoreState) (aid : String) : Prop :=
  ∀ a ∈ st.agents, a.id = aid → a.usedBytes = visibleBytesSum st aid

/-- Every backup row declares a nonnegative ciphertext length. -/
def backupBytesNonneg (st : StoreState) : Prop :=
  ∀ r ∈ st.backups, 0 ≤ r.encryptedBytes

/-- UpdateUsedBytes establishes the used_bytes consistency for the agent it
recomputes. -/
theorem updateUsedBytes_inv (st : StoreState) (aid : String) :
    usedBytesInv (updateUsedBytes st aid) aid := by
  intro a ha haid
  have hvs : visibleBytesSum (updateUsedBytes st aid) aid = visibleBytesSum st aid := rfl
  rw [hvs]
  simp only [updateUsedBytes, List.mem_map] at ha
  obtain ⟨x, hx, hxy⟩ := ha
  by_cases hid : (x.id == aid) = true
  · rw [if_pos hid] at hxy
    subst hxy
    rfl
  · rw [if_neg hid] at hxy
    subst hxy
    exact absurd (by simp [haid]) hid

/-- The visible byte sum is nonnegative when every stored length is. -/
theorem visibleBytesSum_nonneg (st : StoreState) (aid : String)
    (h : backupBytesNonneg st) : 0 ≤ visibleBytesSum st aid := by
  apply listIntSum_nonneg
  intro x hx
  rw [List.mem_map] at hx
  obtain ⟨b, hb, rfl⟩ := hx
  simp only [visibleBackups] at hb
  exact h b (List.mem_of_mem_filter hb)

/-- Consistency plus nonnegative lengths force a nonnegative cache. -/
theorem usedBytes_nonneg_of_inv {st : StoreState} {aid : String}
    (hinv : usedBytesInv st aid) (hnn : backupBytesNonneg st) :
    ∀ a ∈ st.agents, a.id = aid → 0 ≤ a.usedBytes := by
  intro a ha haid
  rw [hinv a ha haid]
  exact visibleBytesSum_nonneg st aid hnn

/-- Claim C7: immediately after any completed mutation of an agent's
backup set (create, soft-delete, delete-all, undelete), the agent's
used_bytes equals the sum of encrypted_bytes over its visible backups,
and is nonnegative whenever every stored length is. Each store mutation
of store_sqlite.go ends in UpdateUsedBytes, which recomputes the cache
from the post-mutation table. -/
theorem c7_used_bytes_recomputed :
    (∀ (st : StoreState) (b : BackupRow) (st1 : StoreState),
        sqliteCreateBackup st b = some st1 →
        usedBytesInv st1 b.agentId ∧
        (backupBytesNonneg st1 → ∀ a ∈ st1.agents, a.id = b.agentId → 0 ≤ a.usedBytes))
    ∧ (∀ (st : StoreState) (aid ts : String) (now : Nat) (b : BackupRow) (st1 : StoreState),
        sqliteDeleteBackup st aid ts now = (some b, st1) →
        usedBytesInv st1 aid ∧
        (backupBytesNonneg st1 → ∀ a ∈ st1.agents, a.id = aid → 0 ≤ a.usedBytes))
    ∧ (∀ (st : StoreState) (aid : String) (now : Nat),
        usedBytesInv (sqliteDeleteAllBackups st aid now).2 aid ∧
        (backupBytesNonneg (sqliteDeleteAllBackups st aid now).2 →
          ∀ a ∈ (sqliteDeleteAllBackups st aid now).2.agents, a.id = aid → 0 ≤ a.usedBytes))
    ∧ (∀ (st : StoreState) (aid ts : String) (st1 : StoreState),
        sqliteUndeleteBackup st aid ts = some st1 →
        usedBytesInv st1 aid ∧
        (backupBytesNonneg st1 → ∀ a ∈ st1.agents, a.id = aid → 0 ≤ a.usedBytes)) := by
  refine ⟨?_, ?_, ?_, ?_⟩
  · intro st b st1 h
    unfold sqliteCreateBackup at h
    by_cases hdup :
        (st.backups.any fun r => r.agentId == b.agentId && r.timestamp == b.timestamp) = true
    · rw [if_pos hdup] at h
      cases h
    · rw [if_neg hdup] at h
      have hst1 := Option.some.inj h
      subst hst1
      have hinv := updateUsedBytes_inv { st with backups := st.backups ++ [b] } b.agentId
      exact ⟨hinv, fun hnn => usedBytes_nonneg_of_inv hinv hnn⟩
  · intro st aid ts now b st1 h
    unfold sqliteDeleteBackup at h
    cases hg : sqliteGetBackup st aid ts with
    | none =>
      rw [hg] at h
      simp at h
    | some b0 =>
      rw [hg] at h
      rw [Prod.mk.injEq] at h
      obtain ⟨hb0, hst⟩ := h
      subst hst
      have hinv := updateUsedBytes_inv
        { st with
          backups := st.backups.map (fun r =>
            if r.agentId == aid && r.timestamp == ts && r.deletedAt == none then
              { r with deletedAt := some now }
            else r) } aid
      exact ⟨hinv, fun hnn => usedBytes_nonneg_of_inv hinv hnn⟩
  · intro st aid now
    have hinv := updateUsedBytes_inv
      { st with
        backups := st.backups.map (fun r =>
          if r.agentId == aid && r.deletedAt == none then { r with deletedAt := some now }
          else r) } aid
    exact ⟨hinv, fun hnn => usedBytes_nonneg_of_inv hinv hnn⟩
  · intro st aid ts st1 h
    unfold sqliteUndeleteBackup at h
    by_cases hex :
        (st.backups.any fun r => r.agentId == aid && r.timestamp == ts && r.deletedAt != none) = true
    · rw [if_pos hex] at h
      have hst1 := Option.some.inj h
      subst hst1
      have hinv := updateUsedBytes_inv
        { st with
          backups := st.backups.map (fun r =>
            if r.agentId == aid && r.timestamp == ts && r.deletedAt != none then
              { r with deletedAt := none }
            else r) } aid
      exact ⟨hinv, fun hnn => usedBytes_nonneg_of_inv hinv hnn⟩
    · rw [if_neg hex] at h
      cases h

/-- Witness for C7: a concrete create followed by the invariant check, the
create equation discharged by evaluation. -/
theorem c7_used_bytes_recomputed_witness :
    sqliteCreateBackup { agents := [agActive], backups := [] } bT1 =
      some (updateUsedBytes
        { agents := [agActive], backups := [bT1] } "ag1")
    ∧ usedBytesInv (updateUsedBytes { agents := [agActive], backups := [bT1] } "ag1") "ag1" :=
  ⟨rfl,
    (c7_used_bytes_recomputed.1 { agents := [agActive], backups := [] } bT1
      (updateUsedBytes { agents := [agActive], backups := [bT1] } "ag1") rfl).1⟩

/-- Claim C6: after a completed token rotation the previous token no
longer authenticates (the lookup by the old token finds no agent, so the
request bearing it gets 401) while the newly issued token authenticates
as that agent. The hypotheses express the token_hash uniqueness the
service maintains: before the rotation only the rotated agent holds the
old hash, no agent holds the fresh hash, and the two hashes differ. -/
theorem c6_rotate_token_invalidates_old
    (hashFn : String → String) (st : StoreState) (aid oldTok newTok : String) (a : AgentRow)
    (ha : a ∈ st.agents) (haid : a.id = aid)
    (hOldOnly : ∀ x ∈ st.agents, x.tokenHash = hashFn oldTok → x.id = aid)
    (hNewFresh : ∀ x ∈ st.agents, x.tokenHash ≠ hashFn newTok)
    (hne : hashFn newTok ≠ hashFn oldTok) :
    lookupAgentByToken hashFn (rotateAgentToken st aid (hashFn newTok)) oldTok = none
    ∧ ∃ b, lookupAgentByToken hashFn (rotateAgentToken st aid (hashFn newTok)) newTok = some b
        ∧ b.id = aid := by
  constructor
  · apply List.find?_eq_none.mpr
    intro y hy
    simp only [rotateAgentToken, List.mem_map] at hy
    obtain ⟨x, hx, hxy⟩ := hy
    by_cases hid : (x.id == aid) = true
    · rw [if_pos hid] at hxy
      subst hxy
      simp only [beq_iff_eq]
      exact hne
    · rw [if_neg hid] at hxy
      subst hxy
      simp only [beq_iff_eq]
      intro hc
      exact hid (by simp [hOldOnly x hx hc])
  · have hmem : ({ a with tokenHash := hashFn newTok } : AgentRow) ∈
        (rotateAgentToken st aid (hashFn newTok)).agents := by
      simp only [rotateAgentToken, List.mem_map]
      refine ⟨a, ha, ?_⟩
      rw [if_pos (by simp [haid])]
    have hsome : ((rotateAgentToken st aid (hashFn newTok)).agents.find?
        (fun x => x.tokenHash == hashFn newTok)).isSome := by
      rw [List.find?_isSome]
      exact ⟨_, hmem, by simp⟩
    obtain ⟨b, hb⟩ := Option.isSome_iff_exists.mp hsome
    refine ⟨b, hb, ?_⟩
    have hbp := List.find?_some hb
    have hbmem := List.mem_of_find?_eq_some hb
    simp only [rotateAgentToken, List.mem_map] at hbmem
    obtain ⟨x, hx, hxy⟩ := hbmem
    by_cases hid : (x.id == aid) = true
    · rw [if_pos hid] at hxy
      subst hxy
      simpa using hid
    · rw [if_neg hid] at hxy
      subst hxy
      exact absurd (by simpa using hbp) (hNewFresh x hx)

/-- An enrolled agent holding the hash of the old token, for the rotation
witness. -/
def agOldToken : AgentRow :=
  { id := "ag1", name := "test-agent", tokenHash := "sha_ocb_old", status := "active",
    quotaBytes := 524288000, usedBytes := 0 }

/-- A toy hash function for the rotation witness. -/
def hashProbe : String → String := fun s => "sha_" ++ s

/-- Witness for C6: a concrete rotation from token ocb_old to ocb_new
under a toy hash; afterwards ocb_old no longer resolves and ocb_new
resolves to the same agent id. -/
theorem c6_rotate_token_invalidates_old_witness :
    lookupAgentByToken hashProbe
      (rotateAgentToken { agents := [agOldToken], backups := [] } "ag1" (hashProbe "ocb_new"))
      "ocb_old" = none
    ∧ ∃ b, lookupAgentByToken hashProbe
        (rotateAgentToken { agents := [agOldToken], backups := [] } "ag1" (hashProbe "ocb_new"))
        "ocb_new" = some b ∧ b.id = "ag1" :=
  c6_rotate_token_invalidates_old hashProbe { agents := [agOldToken], backups := [] }
    "ag1" "ocb_old" "ocb_new" agOldToken (by decide) (by decide)
    (by decide) (by decide) (by decide)

/-- Claim C9, counterexample: a second upload-url request with the same
(agent_id, timestamp) against the SQLite backend does fail — the plain
INSERT hits the (agent_id, timestamp) primary key and the handler answers
500 failed to record backup instead of re-minting. -/
theorem c9_repeat_upload_conflict_cex :
    (uploadURLOld agActive
      { timestamp := "2026-02-22T030000Z", encryptedBytes := 1024 } 2
      (uploadURLOld agActive
        { timestamp := "2026-02-22T030000Z", encryptedBytes := 1024 } 1
        { agents := [agActive], backups := [] }).store).httpStatus = 500 := by
  decide

/-- All rows of a list with the given backup's composite key. -/
def rowsWithKey (l : List BackupRow) (b : BackupRow) : List BackupRow :=
  l.filter (fun r => r.agentId == b.agentId && r.timestamp == b.timestamp)

/-- Filtering by a key after dropping that key yields nothing. -/
theorem rowsWithKey_of_dropped (b : BackupRow) (l : List BackupRow) :
    rowsWithKey (l.filter (fun r => !(r.agentId == b.agentId && r.timestamp == b.timestamp))) b
      = [] := by
  unfold rowsWithKey
  induction l with
  | nil => rfl
  | cons x xs ih =>
    rw [List.filter_cons]
    by_cases hx : (x.agentId == b.agentId && x.timestamp == b.timestamp) = true
    · rw [if_neg (by simp [hx])]
      exact ih
    · rw [if_pos (by simp [hx]), List.filter_cons, if_neg (by simp [hx])]
      exact ih

/-- Claim C9, amended: repeated backup creates with one (agent_id,
timestamp) key are idempotent in the DynamoDB backend — the PutItem
cleanly replaces, leaving exactly the new record at that key — while in
the SQLite backend a create whose key already exists always fails on the
primary key, leaving no re-mint. -/
theorem c9_create_backup_by_backend :
    (∀ (st : StoreState) (b : BackupRow),
        rowsWithKey (dynamoCreateBackup st b).backups b = [{ b with deletedAt := none }])
    ∧ (∀ (st : StoreState) (b : BackupRow),
        (st.backups.any (fun r => r.agentId == b.agentId && r.timestamp == b.timestamp)) = true →
        sqliteCreateBackup st b = none) := by
  constructor
  · intro st b
    have hb : (dynamoCreateBackup st b).backups =
        (st.backups.filter (fun r => !(r.agentId == b.agentId && r.timestamp == b.timestamp))) ++
        [{ b with deletedAt := none }] := rfl
    have hdrop := rowsWithKey_of_dropped b st.backups
    unfold rowsWithKey at hdrop ⊢
    rw [hb, List.filter_append, hdrop]
    simp [List.filter_cons]
  · intro st b h
    unfold sqliteCreateBackup
    rw [if_pos h]

/-- Witness for C9: the DynamoDB replace and the SQLite conflict at the
concrete duplicated record bT1. -/
theorem c9_create_backup_by_backend_witness :
    rowsWithKey (dynamoCreateBackup stOneVisible bT1).backups bT1 = [{ bT1 with deletedAt := none }]
    ∧ sqliteCreateBackup stOneVisible bT1 = none :=
  ⟨c9_create_backup_by_backend.1 stOneVisible bT1,
   c9_create_backup_by_backend.2 stOneVisible bT1 (by decide)⟩

/-- A backup row declaring a negative ciphertext length; nothing in the
store rejects it, and the UploadURL handler admits it because the
encrypted_bytes validation is missing. -/
def bNeg : BackupRow :=
  { agentId := "ag1", timestamp := "2026-02-23T030000Z", encryptedBytes := -100,
    s3Key := "ag1/2026-02-23T030000Z/backup.tar.gz.enc",
    manifestS3Key := "ag1/2026-02-23T030000Z/manifest.json", createdAt := 2 }

/-- Claim C7, counterexample: a completed CreateBackup with
encrypted_bytes = -100 leaves the agent's used_bytes = -100 < 0, so the
unconditional used_bytes nonnegativity part of the claim is false of the
code; the same input reaches the store through the UploadURL handler,
whose quota check 0 + (-100) > quota passes and whose positivity check is
missing, so the handler answers 200. -/
theorem c7_negative_used_bytes_cex :
    sqliteCreateBackup { agents := [agActive], backups := [] } bNeg =
      some { agents := [{ agActive with usedBytes := -100 }], backups := [bNeg] }
    ∧ ({ agActive with usedBytes := -100 } : AgentRow).usedBytes < 0
    ∧ (uploadURLOld agActive
        { timestamp := "2026-02-23T030000Z", encryptedBytes := -100 } 2
        { agents := [agActive], backups := [] }).httpStatus = 200 := by
  refine ⟨by decide, by decide, rfl⟩
